import Mathlib

/-!
Verification of the MNIST IDX loader (`src/lib.rs`): a shallow embedding of
`parse_images`, `parse_labels` and `Mnist::new`, with theorems about header
decoding, record extraction, truncation behaviour and the dataset loader's
validation logic.

Files are modelled as `Option (List Nat)` (`none` = the file cannot be
opened), each list entry one byte of the file.  Rust's `io::Result` together
with the possibility of a panic (`unwrap` / `expect` / `assert_eq!`) is
modelled by the three-valued `Outcome`.
-/

set_option maxRecDepth 10000

namespace RustMnist

/-- A file's contents: one `Nat` per byte (in a real file every entry is
less than 256; header decoding reduces entries mod 256 as `u8` does). -/
abbrev Bytes := List Nat

-- Filename constants from src/lib.rs lines 13-16.
def TRAIN_DATA_FILENAME : String := "train-images-idx3-ubyte"

def TEST_DATA_FILENAME : String := "t10k-images-idx3-ubyte"

def TRAIN_LABEL_FILENAME : String := "train-labels-idx1-ubyte"

def TEST_LABEL_FILENAME : String := "t10k-labels-idx1-ubyte"

-- Dataset constants from src/lib.rs lines 19-24.
def IMAGES_MAGIC_NUMBER : Nat := 2051

def LABELS_MAGIC_NUMBER : Nat := 2049

def NUM_TRAIN_IMAGES : Nat := 60000

def NUM_TEST_IMAGES : Nat := 10000

def IMAGE_ROWS : Nat := 28

def IMAGE_COLUMNS : Nat := 28

/-- Result of running a fallible Rust function: `ok` a returned value,
`ioErr` an `io::Error` surfaced to the caller (recoverable `Err`), and
`panicked` a process-terminating panic (`unwrap`, `expect`, `assert_eq!`). -/
inductive Outcome (α : Type) where
  | ok : α → Outcome α
  | ioErr : Outcome α
  | panicked : Outcome α
deriving Repr, DecidableEq

/-- `reader.take(limit).read_exact(&mut buf)` for a `k`-byte buffer reading
from the remaining file bytes `data`: succeeds, consuming and returning
exactly `k` bytes, iff the `take` limit and the available bytes both allow
all `k` bytes; otherwise `read_exact` fails with `UnexpectedEof`. -/
def readExact (k limit : Nat) (data : Bytes) : Option (Bytes × Bytes) :=
  if k ≤ limit ∧ k ≤ data.length then some (data.take k, data.drop k) else none

/-- `u32::from_be_bytes` on a 4-byte buffer (entries taken mod 256 as `u8`),
then `usize::try_from` (always succeeds on 64-bit). -/
def beU32 : Bytes → Nat
  | [b0, b1, b2, b3] => b0 % 256 * 16777216 + b1 % 256 * 65536 + b2 % 256 * 256 + b3 % 256
  | _ => 0

/-- Decoded image file (struct `MnistImages`, src/lib.rs lines 182-188).
In the source `images : Vec<[u8; IMAGE_ROWS * IMAGE_COLUMNS]>`: each
buffer has the fixed compile-time length 28*28 = 784. -/
structure MnistImages where
  magic_number : Nat
  num_images : Nat
  num_rows : Nat
  num_cols : Nat
  images : List Bytes
deriving Repr, DecidableEq

/-- The record loop of `parse_images` (src/lib.rs lines 231-238): for each
of `count` images, `take(num_rows * num_cols).read_exact(&mut image_buffer)`
with `image_buffer : [u8; IMAGE_ROWS * IMAGE_COLUMNS]`, `.unwrap()` on
failure (a panic). -/
def parseImageRecords (count recordLimit : Nat) (data : Bytes) : Outcome (List Bytes) :=
  match count with
  | 0 => .ok []
  | n + 1 =>
    match readExact (IMAGE_ROWS * IMAGE_COLUMNS) recordLimit data with
    | none => .panicked
    | some (buf, rest) =>
      match parseImageRecords n recordLimit rest with
      | .ok imgs => .ok (buf :: imgs)
      | .ioErr => .ioErr
      | .panicked => .panicked

/-- `parse_images` (src/lib.rs lines 190-247).  `File::open` and the four
4-byte big-endian header reads propagate failures with `?` (recoverable
`ioErr`); the record loop unwraps (panics) on failure. -/
def parse_images (file : Option Bytes) : Outcome MnistImages :=
  match file with
  | none => .ioErr
  | some data =>
    match readExact 4 4 data with
    | none => .ioErr
    | some (b0, d0) =>
      let magic_number := beU32 b0
      match readExact 4 4 d0 with
      | none => .ioErr
      | some (b1, d1) =>
        let num_images := beU32 b1
        match readExact 4 4 d1 with
        | none => .ioErr
        | some (b2, d2) =>
          let num_rows := beU32 b2
          match readExact 4 4 d2 with
          | none => .ioErr
          | some (b3, d3) =>
            let num_cols := beU32 b3
            match parseImageRecords num_images (num_rows * num_cols) d3 with
            | .ok images => .ok ⟨magic_number, num_images, num_rows, num_cols, images⟩
            | .ioErr => .ioErr
            | .panicked => .panicked

/-- The record loop of `parse_labels` (src/lib.rs lines 277-284): for each
of `count` labels, `take(1).read_exact(&mut label_buffer)` with a 1-byte
buffer, `.unwrap()` on failure, pushing `label_buffer[0]`. -/
def parseLabelRecords (count : Nat) (data : Bytes) : Outcome (List Nat) :=
  match count with
  | 0 => .ok []
  | n + 1 =>
    match readExact 1 1 data with
    | none => .panicked
    | some (buf, rest) =>
      match parseLabelRecords n rest with
      | .ok ls => .ok (buf.headD 0 :: ls)
      | .ioErr => .ioErr
      | .panicked => .panicked

/-- `parse_labels` (src/lib.rs lines 249-286).  `File::open` propagates with
`?` (recoverable), but both 4-byte header reads and every record read use
`.unwrap()`: any truncation panics. -/
def parse_labels (file : Option Bytes) : Outcome (Nat × Nat × List Nat) :=
  match file with
  | none => .ioErr
  | some data =>
    match readExact 4 4 data with
    | none => .panicked
    | some (b0, d0) =>
      let magic_number := beU32 b0
      match readExact 4 4 d0 with
      | none => .panicked
      | some (b1, d1) =>
        let num_labels := beU32 b1
        match parseLabelRecords num_labels d1 with
        | .ok labels => .ok (magic_number, num_labels, labels)
        | .ioErr => .ioErr
        | .panicked => .panicked

/-- `PathBuf::join`: a directory together with a filename. -/
abbrev Path := String × String

/-- The on-disk state the loader reads: contents of each path, `none` if
the file is missing/unopenable. -/
abbrev FileSystem := Path → Option Bytes

def pathJoin (dir name : String) : Path := (dir, name)

/-- The `Mnist` struct (src/lib.rs lines 26-34). -/
structure Mnist where
  train_data : List Bytes
  test_data : List Bytes
  train_labels : List Nat
  test_labels : List Nat
deriving Repr, DecidableEq

/-- Which of the four decode-and-validate stages of `Mnist::new` is acting. -/
inductive Split where
  | trainData
  | testData
  | trainLabels
  | testLabels
deriving Repr, DecidableEq

/-- Which header field an `assert_eq!` in `Mnist::new` compares. -/
inductive HeaderField where
  | magicNumber
  | count
  | rows
  | cols
deriving Repr, DecidableEq

/-- Result of `Mnist::new`, which either returns the struct or terminates
the process: `expectPanic` = `.expect(...)` fired on a decoder `Err`
(message names the offending path), `decoderPanic` = a panic inside the
decoder itself propagated, `assertPanic s f actual expected` = the
`assert_eq!` for field `f` of stage `s` failed comparing `actual` against
`expected`. -/
inductive LoadResult where
  | ok : Mnist → LoadResult
  | expectPanic : Path → LoadResult
  | decoderPanic : Split → LoadResult
  | assertPanic : Split → HeaderField → Nat → Nat → LoadResult
deriving Repr, DecidableEq

/-- The four `assert_eq!` checks run after each `parse_images` call
(src/lib.rs lines 57-72 and 86-101), in source order: magic number,
image count, rows, cols. -/
def checkImages (s : Split) (expectedCount : Nat) (d : MnistImages) : Option LoadResult :=
  if d.magic_number ≠ IMAGES_MAGIC_NUMBER then
    some (.assertPanic s .magicNumber d.magic_number IMAGES_MAGIC_NUMBER)
  else if d.num_images ≠ expectedCount then
    some (.assertPanic s .count d.num_images expectedCount)
  else if d.num_rows ≠ IMAGE_ROWS then
    some (.assertPanic s .rows d.num_rows IMAGE_ROWS)
  else if d.num_cols ≠ IMAGE_COLUMNS then
    some (.assertPanic s .cols d.num_cols IMAGE_COLUMNS)
  else none

/-- The two `assert_eq!` checks run after each `parse_labels` call
(src/lib.rs lines 115-122 and 136-143): magic number, label count. -/
def checkLabels (s : Split) (expectedCount : Nat) (magic count : Nat) : Option LoadResult :=
  if magic ≠ LABELS_MAGIC_NUMBER then
    some (.assertPanic s .magicNumber magic LABELS_MAGIC_NUMBER)
  else if count ≠ expectedCount then
    some (.assertPanic s .count count expectedCount)
  else none

/-- `Mnist::new` (src/lib.rs lines 44-151).  Note: the training-data stage
joins `TRAIN_LABEL_FILENAME`, not `TRAIN_DATA_FILENAME` (line 47 of the
source), so the file parsed as training images is the one at the
training-labels path. -/
def Mnist.new (fs : FileSystem) (mnist_path : String) : LoadResult :=
  match parse_images (fs (pathJoin mnist_path TRAIN_LABEL_FILENAME)) with
  | .ioErr => .expectPanic (pathJoin mnist_path TRAIN_LABEL_FILENAME)
  | .panicked => .decoderPanic .trainData
  | .ok train_data =>
    match checkImages .trainData NUM_TRAIN_IMAGES train_data with
    | some e => e
    | none =>
      match parse_images (fs (pathJoin mnist_path TEST_DATA_FILENAME)) with
      | .ioErr => .expectPanic (pathJoin mnist_path TEST_DATA_FILENAME)
      | .panicked => .decoderPanic .testData
      | .ok test_data =>
        match checkImages .testData NUM_TEST_IMAGES test_data with
        | some e => e
        | none =>
          match parse_labels (fs (pathJoin mnist_path TRAIN_LABEL_FILENAME)) with
          | .ioErr => .expectPanic (pathJoin mnist_path TRAIN_LABEL_FILENAME)
          | .panicked => .decoderPanic .trainLabels
          | .ok (m1, n1, train_labels) =>
            match checkLabels .trainLabels NUM_TRAIN_IMAGES m1 n1 with
            | some e => e
            | none =>
              match parse_labels (fs (pathJoin mnist_path TEST_LABEL_FILENAME)) with
              | .ioErr => .expectPanic (pathJoin mnist_path TEST_LABEL_FILENAME)
              | .panicked => .decoderPanic .testLabels
              | .ok (m2, n2, test_labels) =>
                match checkLabels .testLabels NUM_TEST_IMAGES m2 n2 with
                | some e => e
                | none =>
                  .ok ⟨train_data.images, test_data.images, train_labels, test_labels⟩

/-- Big-endian 4-byte encoding of a 32-bit value (for building synthetic
files; inverse of `beU32` below 2^32). -/
def u32be (n : Nat) : Bytes :=
  [n / 16777216 % 256, n / 65536 % 256, n / 256 % 256, n % 256]

/-- A synthetic image file: 16-byte big-endian header followed by the raw
pixel bytes of the buffers, no padding (spec section 6 file format). -/
def encodeImages (magic count rows cols : Nat) (imgs : List Bytes) : Bytes :=
  u32be magic ++ u32be count ++ u32be rows ++ u32be cols ++ imgs.flatten

/-- A synthetic label file: 8-byte big-endian header followed by one raw
byte per label. -/
def encodeLabels (magic count : Nat) (ls : List Nat) : Bytes :=
  u32be magic ++ u32be count ++ ls

/-! ### Basic lemmas about the byte-reading primitives -/

theorem readExact_some {k limit : Nat} {data : Bytes} (h1 : k ≤ limit) (h2 : k ≤ data.length) :
    readExact k limit data = some (data.take k, data.drop k) := by
  simp [readExact, h1, h2]

theorem readExact_none {k limit : Nat} {data : Bytes} (h : limit < k ∨ data.length < k) :
    readExact k limit data = none := by
  simp only [readExact, ite_eq_right_iff]
  intro hc
  omega

theorem u32be_length (n : Nat) : (u32be n).length = 4 := rfl

theorem beU32_u32be {n : Nat} (h : n < 4294967296) : beU32 (u32be n) = n := by
  simp only [u32be, beU32]
  omega

theorem readExact4_append (b rest : Bytes) (hb : b.length = 4) :
    readExact 4 4 (b ++ rest) = some (b, rest) := by
  rw [readExact_some (le_refl 4) (by simp [hb]), ← hb, List.take_left, List.drop_left]

/-- The pixel buffers exactly as the record loop of `parse_images` extracts
them: successive 784-byte chunks of the post-header bytes. -/
def chunk784 : Nat → Bytes → List Bytes
  | 0, _ => []
  | n + 1, d => d.take 784 :: chunk784 n (d.drop 784)

theorem chunk784_length (n : Nat) (d : Bytes) : (chunk784 n d).length = n := by
  induction n generalizing d with
  | zero => rfl
  | succ n ih => simp [chunk784, ih]

theorem chunk784_mem_length {n : Nat} {d : Bytes} (h : n * 784 ≤ d.length) :
    ∀ b ∈ chunk784 n d, b.length = 784 := by
  induction n generalizing d with
  | zero => simp [chunk784]
  | succ n ih =>
    intro b hb
    simp only [chunk784, List.mem_cons] at hb
    rcases hb with rfl | hb
    · simp only [List.length_take]
      omega
    · exact ih (by simp only [List.length_drop]; omega) b hb

/-! ### The record loops -/

theorem parseImageRecords_ok {n rc : Nat} {d : Bytes} (h1 : 784 ≤ rc) (h2 : n * 784 ≤ d.length) :
    parseImageRecords n rc d = .ok (chunk784 n d) := by
  induction n generalizing d with
  | zero => rfl
  | succ n ih =>
    have e : readExact (IMAGE_ROWS * IMAGE_COLUMNS) rc d = some (d.take 784, d.drop 784) := by
      have h784 : IMAGE_ROWS * IMAGE_COLUMNS = 784 := rfl
      rw [h784]
      exact readExact_some h1 (by omega)
    have hrec := @ih (d.drop 784) (by simp only [List.length_drop]; omega)
    simp only [parseImageRecords, e, hrec, chunk784]

theorem parseImageRecords_panicked {n rc : Nat} {d : Bytes} (h1 : 1 ≤ n)
    (h2 : rc < 784 ∨ d.length < n * 784) :
    parseImageRecords n rc d = .panicked := by
  induction n generalizing d with
  | zero => omega
  | succ n ih =>
    have h784 : IMAGE_ROWS * IMAGE_COLUMNS = 784 := rfl
    by_cases hfail : rc < 784 ∨ d.length < 784
    · have e : readExact (IMAGE_ROWS * IMAGE_COLUMNS) rc d = none := by
        rw [h784]
        exact readExact_none (by omega)
      simp [parseImageRecords, e]
    · push_neg at hfail
      obtain ⟨ha, hb⟩ := hfail
      rcases h2 with h2 | h2
      · omega
      · have e : readExact (IMAGE_ROWS * IMAGE_COLUMNS) rc d = some (d.take 784, d.drop 784) := by
          rw [h784]
          exact readExact_some (by omega) hb
        have hrec : parseImageRecords n rc (d.drop 784) = .panicked := by
          apply ih (by omega)
          right
          simp only [List.length_drop]
          omega
        simp [parseImageRecords, e, hrec]

theorem parseImageRecords_ok_inv {n rc : Nat} {d : Bytes} {imgs : List Bytes}
    (h : parseImageRecords n rc d = .ok imgs) :
    imgs = chunk784 n d ∧ n * 784 ≤ d.length := by
  rcases Nat.eq_zero_or_pos n with rfl | hn
  · rw [parseImageRecords] at h
    cases h
    exact ⟨rfl, by omega⟩
  · by_cases hc : 784 ≤ rc ∧ n * 784 ≤ d.length
    · rw [parseImageRecords_ok hc.1 hc.2] at h
      cases h
      exact ⟨rfl, hc.2⟩
    · rw [parseImageRecords_panicked hn (by omega)] at h
      simp at h

theorem parseImageRecords_never_ioErr {n rc : Nat} {d : Bytes} :
    parseImageRecords n rc d ≠ .ioErr := by
  induction n generalizing d with
  | zero => simp [parseImageRecords]
  | succ n ih =>
    rw [parseImageRecords]
    cases e : readExact (IMAGE_ROWS * IMAGE_COLUMNS) rc d with
    | none => simp
    | some pr =>
      obtain ⟨buf, rest⟩ := pr
      cases e2 : parseImageRecords n rc rest with
      | ok imgs => simp [e2]
      | ioErr => exact absurd e2 ih
      | panicked => simp [e2]

theorem parseLabelRecords_ok {n : Nat} {d : Bytes} (h : n ≤ d.length) :
    parseLabelRecords n d = .ok (d.take n) := by
  induction n generalizing d with
  | zero => rfl
  | succ n ih =>
    cases d with
    | nil => simp at h
    | cons a t =>
      have e : readExact 1 1 (a :: t) = some ([a], t) :=
        readExact_some (le_refl 1) (by simp)
      have hrec := @ih t (by simp at h; omega)
      simp only [parseLabelRecords, e, hrec]
      rfl

theorem parseLabelRecords_panicked {n : Nat} {d : Bytes} (h : d.length < n) :
    parseLabelRecords n d = .panicked := by
  induction n generalizing d with
  | zero => omega
  | succ n ih =>
    cases d with
    | nil =>
      have e : readExact 1 1 ([] : Bytes) = none := readExact_none (by simp)
      simp [parseLabelRecords, e]
    | cons a t =>
      have e : readExact 1 1 (a :: t) = some ([a], t) :=
        readExact_some (le_refl 1) (by simp)
      have hrec : parseLabelRecords n t = .panicked := ih (by simp at h ⊢; omega)
      simp [parseLabelRecords, e, hrec]

theorem parseLabelRecords_ok_inv {n : Nat} {d : Bytes} {ls : List Nat}
    (h : parseLabelRecords n d = .ok ls) : ls = d.take n ∧ n ≤ d.length := by
  by_cases hn : n ≤ d.length
  · rw [parseLabelRecords_ok hn] at h
    cases h
    exact ⟨rfl, hn⟩
  · rw [parseLabelRecords_panicked (by omega)] at h
    simp at h

/-! ### Evaluation lemmas for the two decoders -/

theorem parse_images_eq (data : Bytes) (h : 16 ≤ data.length) :
    parse_images (some data) =
      match parseImageRecords (beU32 ((data.drop 4).take 4))
          (beU32 ((data.drop 8).take 4) * beU32 ((data.drop 12).take 4)) (data.drop 16) with
      | .ok imgs =>
          .ok ⟨beU32 (data.take 4), beU32 ((data.drop 4).take 4),
               beU32 ((data.drop 8).take 4), beU32 ((data.drop 12).take 4), imgs⟩
      | .ioErr => .ioErr
      | .panicked => .panicked := by
  have e0 : readExact 4 4 data = some (data.take 4, data.drop 4) :=
    readExact_some (le_refl 4) (by omega)
  have e1 : readExact 4 4 (data.drop 4) = some ((data.drop 4).take 4, data.drop 8) := by
    rw [readExact_some (le_refl 4) (by simp; omega), List.drop_drop]
  have e2 : readExact 4 4 (data.drop 8) = some ((data.drop 8).take 4, data.drop 12) := by
    rw [readExact_some (le_refl 4) (by simp; omega), List.drop_drop]
  have e3 : readExact 4 4 (data.drop 12) = some ((data.drop 12).take 4, data.drop 16) := by
    rw [readExact_some (le_refl 4) (by simp; omega), List.drop_drop]
  simp only [parse_images, e0, e1, e2, e3]

theorem parse_images_truncated_header {data : Bytes} (h : data.length < 16) :
    parse_images (some data) = .ioErr := by
  by_cases h0 : data.length < 4
  · have e0 : readExact 4 4 data = none := readExact_none (by omega)
    simp [parse_images, e0]
  · push_neg at h0
    have e0 : readExact 4 4 data = some (data.take 4, data.drop 4) :=
      readExact_some (le_refl 4) h0
    by_cases h1 : data.length < 8
    · have e1 : readExact 4 4 (data.drop 4) = none := readExact_none (by simp; omega)
      simp [parse_images, e0, e1]
    · push_neg at h1
      have e1 : readExact 4 4 (data.drop 4) = some ((data.drop 4).take 4, data.drop 8) := by
        rw [readExact_some (le_refl 4) (by simp; omega), List.drop_drop]
      by_cases h2 : data.length < 12
      · have e2 : readExact 4 4 (data.drop 8) = none := readExact_none (by simp; omega)
        simp [parse_images, e0, e1, e2]
      · push_neg at h2
        have e2 : readExact 4 4 (data.drop 8) = some ((data.drop 8).take 4, data.drop 12) := by
          rw [readExact_some (le_refl 4) (by simp; omega), List.drop_drop]
        have e3 : readExact 4 4 (data.drop 12) = none := readExact_none (by simp; omega)
        simp [parse_images, e0, e1, e2, e3]

theorem parse_labels_eq (data : Bytes) (h : 8 ≤ data.length) :
    parse_labels (some data) =
      match parseLabelRecords (beU32 ((data.drop 4).take 4)) (data.drop 8) with
      | .ok ls => .ok (beU32 (data.take 4), beU32 ((data.drop 4).take 4), ls)
      | .ioErr => .ioErr
      | .panicked => .panicked := by
  have e0 : readExact 4 4 data = some (data.take 4, data.drop 4) :=
    readExact_some (le_refl 4) (by omega)
  have e1 : readExact 4 4 (data.drop 4) = some ((data.drop 4).take 4, data.drop 8) := by
    rw [readExact_some (le_refl 4) (by simp; omega), List.drop_drop]
  simp only [parse_labels, e0, e1]

theorem parse_labels_truncated_header {data : Bytes} (h : data.length < 8) :
    parse_labels (some data) = .panicked := by
  by_cases h0 : data.length < 4
  · have e0 : readExact 4 4 data = none := readExact_none (by omega)
    simp [parse_labels, e0]
  · push_neg at h0
    have e0 : readExact 4 4 data = some (data.take 4, data.drop 4) :=
      readExact_some (le_refl 4) h0
    have e1 : readExact 4 4 (data.drop 4) = none := readExact_none (by simp; omega)
    simp [parse_labels, e0, e1]

/-! ### Decoding synthetic (encoded) files -/

theorem encodeImages_eq (m c r cl : Nat) (imgs : List Bytes) :
    encodeImages m c r cl imgs =
      u32be m ++ (u32be c ++ (u32be r ++ (u32be cl ++ imgs.flatten))) := by
  simp [encodeImages, List.append_assoc]

theorem encodeLabels_eq (m c : Nat) (ls : List Nat) :
    encodeLabels m c ls = u32be m ++ (u32be c ++ ls) := by
  simp [encodeLabels, List.append_assoc]

theorem parse_images_encoded (m c r cl : Nat) (d : Bytes)
    (hm : m < 4294967296) (hc : c < 4294967296) (hr : r < 4294967296) (hcl : cl < 4294967296) :
    parse_images (some (u32be m ++ (u32be c ++ (u32be r ++ (u32be cl ++ d))))) =
      match parseImageRecords c (r * cl) d with
      | .ok imgs => .ok ⟨m, c, r, cl, imgs⟩
      | .ioErr => .ioErr
      | .panicked => .panicked := by
  simp only [parse_images, readExact4_append _ _ (u32be_length m),
    readExact4_append _ _ (u32be_length c), readExact4_append _ _ (u32be_length r),
    readExact4_append _ _ (u32be_length cl), beU32_u32be hm, beU32_u32be hc,
    beU32_u32be hr, beU32_u32be hcl]

theorem parse_labels_encoded (m c : Nat) (d : Bytes)
    (hm : m < 4294967296) (hc : c < 4294967296) :
    parse_labels (some (u32be m ++ (u32be c ++ d))) =
      match parseLabelRecords c d with
      | .ok ls => .ok (m, c, ls)
      | .ioErr => .ioErr
      | .panicked => .panicked := by
  simp only [parse_labels, readExact4_append _ _ (u32be_length m),
    readExact4_append _ _ (u32be_length c), beU32_u32be hm, beU32_u32be hc]

/-! ### Inversion: what a successful decode implies -/

theorem parse_images_ok_inv {file : Option Bytes} {res : MnistImages}
    (h : parse_images file = .ok res) :
    ∃ data : Bytes, file = some data ∧ 16 ≤ data.length ∧
      res.magic_number = beU32 (data.take 4) ∧
      res.num_images = beU32 ((data.drop 4).take 4) ∧
      res.num_rows = beU32 ((data.drop 8).take 4) ∧
      res.num_cols = beU32 ((data.drop 12).take 4) ∧
      res.images = chunk784 res.num_images (data.drop 16) ∧
      res.num_images * 784 ≤ (data.drop 16).length := by
  cases file with
  | none => simp [parse_images] at h
  | some data =>
    by_cases hlen : 16 ≤ data.length
    · rw [parse_images_eq data hlen] at h
      cases e : parseImageRecords (beU32 ((data.drop 4).take 4))
          (beU32 ((data.drop 8).take 4) * beU32 ((data.drop 12).take 4)) (data.drop 16) with
      | ok imgs =>
        rw [e] at h
        have h' : MnistImages.mk (beU32 (data.take 4)) (beU32 ((data.drop 4).take 4))
            (beU32 ((data.drop 8).take 4)) (beU32 ((data.drop 12).take 4)) imgs = res :=
          Outcome.ok.inj h
        subst h'
        obtain ⟨himgs, hlen2⟩ := parseImageRecords_ok_inv e
        subst himgs
        exact ⟨data, rfl, hlen, rfl, rfl, rfl, rfl, rfl, hlen2⟩
      | ioErr =>
        rw [e] at h
        simp at h
      | panicked =>
        rw [e] at h
        simp at h
    · rw [parse_images_truncated_header (by omega)] at h
      simp at h

theorem parse_labels_ok_inv {file : Option Bytes} {m n : Nat} {ls : List Nat}
    (h : parse_labels file = .ok (m, n, ls)) :
    ∃ data : Bytes, file = some data ∧ 8 ≤ data.length ∧
      m = beU32 (data.take 4) ∧ n = beU32 ((data.drop 4).take 4) ∧
      ls = (data.drop 8).take n ∧ n ≤ (data.drop 8).length := by
  cases file with
  | none => simp [parse_labels] at h
  | some data =>
    by_cases hlen : 8 ≤ data.length
    · rw [parse_labels_eq data hlen] at h
      cases e : parseLabelRecords (beU32 ((data.drop 4).take 4)) (data.drop 8) with
      | ok ls' =>
        rw [e] at h
        have h' : (beU32 (data.take 4), beU32 ((data.drop 4).take 4), ls') = (m, n, ls) :=
          Outcome.ok.inj h
        obtain ⟨hm, hn, hls⟩ : beU32 (data.take 4) = m ∧ beU32 ((data.drop 4).take 4) = n ∧
            ls' = ls := by
          simpa [Prod.ext_iff] using h'
        subst hm
        subst hn
        subst hls
        obtain ⟨hls', hlen2⟩ := parseLabelRecords_ok_inv e
        subst hls'
        exact ⟨data, rfl, hlen, rfl, rfl, rfl, hlen2⟩
      | ioErr =>
        rw [e] at h
        simp at h
      | panicked =>
        rw [e] at h
        simp at h
    · rw [parse_labels_truncated_header (by omega)] at h
      simp at h

/-! ### Round-trip of the record loop, and the loader's validation checks -/

theorem parseImageRecords_flatten {imgs : List Bytes} {rc : Nat} (h1 : 784 ≤ rc)
    (h2 : ∀ b ∈ imgs, b.length = 784) :
    parseImageRecords imgs.length rc imgs.flatten = .ok imgs := by
  induction imgs with
  | nil => rfl
  | cons b bs ih =>
    have hb : b.length = 784 := h2 b (by simp)
    have e : readExact (IMAGE_ROWS * IMAGE_COLUMNS) rc (b :: bs).flatten
        = some (b, bs.flatten) := by
      have h784 : IMAGE_ROWS * IMAGE_COLUMNS = 784 := rfl
      rw [h784, List.flatten_cons, readExact_some h1 (by simp [hb]), ← hb,
        List.take_left, List.drop_left]
    have hrec := ih (fun x hx => h2 x (by simp [hx]))
    simp only [List.length_cons, parseImageRecords, e, hrec]

theorem checkImages_none {s : Split} {c : Nat} {d : MnistImages}
    (h : checkImages s c d = none) :
    d.magic_number = IMAGES_MAGIC_NUMBER ∧ d.num_images = c ∧
      d.num_rows = IMAGE_ROWS ∧ d.num_cols = IMAGE_COLUMNS := by
  unfold checkImages at h
  split at h
  · simp at h
  next h1 =>
    split at h
    · simp at h
    next h2 =>
      split at h
      · simp at h
      next h3 =>
        split at h
        · simp at h
        next h4 => exact ⟨not_not.mp h1, not_not.mp h2, not_not.mp h3, not_not.mp h4⟩

theorem checkImages_some {s : Split} {c : Nat} {d : MnistImages} {r : LoadResult}
    (h : checkImages s c d = some r) :
    ∃ f actual expected, r = .assertPanic s f actual expected := by
  unfold checkImages at h
  split at h
  · cases h
    exact ⟨_, _, _, rfl⟩
  split at h
  · cases h
    exact ⟨_, _, _, rfl⟩
  split at h
  · cases h
    exact ⟨_, _, _, rfl⟩
  split at h
  · cases h
    exact ⟨_, _, _, rfl⟩
  · simp at h

theorem checkLabels_none {s : Split} {c magic count : Nat}
    (h : checkLabels s c magic count = none) :
    magic = LABELS_MAGIC_NUMBER ∧ count = c := by
  unfold checkLabels at h
  split at h
  · simp at h
  next h1 =>
    split at h
    · simp at h
    next h2 => exact ⟨not_not.mp h1, not_not.mp h2⟩

theorem checkLabels_some {s : Split} {c magic count : Nat} {r : LoadResult}
    (h : checkLabels s c magic count = some r) :
    ∃ f actual expected, r = .assertPanic s f actual expected := by
  unfold checkLabels at h
  split at h
  · cases h
    exact ⟨_, _, _, rfl⟩
  split at h
  · cases h
    exact ⟨_, _, _, rfl⟩
  · simp at h

theorem parse_images_ok_length {file : Option Bytes} {res : MnistImages}
    (h : parse_images file = .ok res) : res.images.length = res.num_images := by
  obtain ⟨data, -, -, -, -, -, -, himgs, -⟩ := parse_images_ok_inv h
  rw [himgs, chunk784_length]

theorem parse_labels_ok_length {file : Option Bytes} {m n : Nat} {ls : List Nat}
    (h : parse_labels file = .ok (m, n, ls)) : ls.length = n := by
  obtain ⟨data, -, -, -, -, hls, hlen⟩ := parse_labels_ok_inv h
  rw [hls, List.length_take]
  omega

/-- A load outcome in which any returned dataset has its train sequences aligned and
its test sequences aligned; failure outcomes carry no dataset and satisfy this
trivially. -/
def datasetAligned : LoadResult → Prop
  | .ok m => m.train_data.length = m.train_labels.length ∧
      m.test_data.length = m.test_labels.length
  | _ => True

/-! ### Claim C2 -/

/-- Claim C2, counterexample: on the file with big-endian header 2051, 2, 2, 2 followed
by the 8 raw bytes 1..8, the image decoder does NOT succeed with the two 4-byte
buffers the claim states (it panics: each record read demands a full 784-byte
buffer, but the take-limit is rows*cols = 4). -/
theorem claim_C2_counterexample :
    parse_images (some [0,0,8,3, 0,0,0,2, 0,0,0,2, 0,0,0,2, 1,2,3,4,5,6,7,8]) ≠
      .ok ⟨2051, 2, 2, 2, [[1,2,3,4], [5,6,7,8]]⟩ := by
  decide

/-- Claim C2 (amended): on the file with big-endian header 2051, 2, 2, 2 followed by
the 8 raw bytes 1..8, the image decoder panics (the record read `read_exact` into the
fixed 784-byte buffer fails under the 4-byte take limit and is unwrapped), so no
value is returned. -/
theorem claim_C2_thm :
    parse_images (some [0,0,8,3, 0,0,0,2, 0,0,0,2, 0,0,0,2, 1,2,3,4,5,6,7,8]) =
      .panicked := by
  decide

/-! ### Claim C3 -/

/-- Claim C3, counterexample: a file declaring 1 record of 785 x 1 pixels followed by
785 record bytes decodes successfully, but the single returned buffer holds only the
first 784 bytes, not rows*cols = 785 — the decoder does not read rows*cols bytes per
record. -/
theorem claim_C3_counterexample :
    parse_images (some (u32be 2051 ++ (u32be 1 ++ (u32be 785 ++ (u32be 1 ++
        (List.replicate 784 0 ++ [7])))))) =
      .ok ⟨2051, 1, 785, 1, [List.replicate 784 0]⟩ ∧
    (List.replicate (784:Nat) (0:Nat)).length ≠ 785 * 1 := by
  have ht : (List.replicate 784 (0:Nat) ++ [7]).take 784 = List.replicate 784 0 :=
    List.take_left' (by simp)
  constructor
  · rw [parse_images_encoded 2051 1 785 1 _ (by norm_num) (by norm_num) (by norm_num)
      (by norm_num)]
    rw [parseImageRecords_ok (by norm_num) (by simp)]
    simp [chunk784, ht]
  · simp

/-- Claim C3 (amended): for every image file with a 16-byte header declaring
image_count records of rows x cols pixels where rows*cols is at least 784, and with at
least image_count*784 record bytes after the header, the decoder succeeds and reads
exactly 784 = IMAGE_ROWS*IMAGE_COLUMNS bytes per record (not rows*cols) in file
order, performing no validation of magic number, counts, or dimensions; when
rows*cols < 784 and image_count is nonzero it panics instead. -/
theorem claim_C3_thm (data : Bytes) (h : 16 ≤ data.length)
    (hrc : 784 ≤ beU32 ((data.drop 8).take 4) * beU32 ((data.drop 12).take 4))
    (hlen : beU32 ((data.drop 4).take 4) * 784 ≤ (data.drop 16).length) :
    parse_images (some data) =
      .ok ⟨beU32 (data.take 4), beU32 ((data.drop 4).take 4), beU32 ((data.drop 8).take 4),
        beU32 ((data.drop 12).take 4), chunk784 (beU32 ((data.drop 4).take 4)) (data.drop 16)⟩ := by
  rw [parse_images_eq data h, parseImageRecords_ok hrc hlen]

/-- Claim C3 witness: the amended theorem applied to a concrete 28 x 28 file with one
784-byte record. -/
theorem claim_C3_witness :
    parse_images (some (([0,0,8,3, 0,0,0,1, 0,0,0,28, 0,0,0,28] : Bytes) ++
        List.replicate 784 0)) =
      .ok ⟨2051, 1, 28, 28, [List.replicate 784 0]⟩ := by
  rw [claim_C3_thm (([0,0,8,3, 0,0,0,1, 0,0,0,28, 0,0,0,28] : Bytes) ++
        List.replicate 784 0) (by decide) (by decide) (by decide)]
  decide

/-! ### Claim C4 -/

/-- Claim C4, counterexample: truncation does not always yield a recoverable error —
a label file with only a 4-byte header makes the decoder panic (terminate the
process), as does an image file whose header promises a record that is absent. -/
theorem claim_C4_counterexample :
    parse_labels (some [0,0,8,1]) = .panicked ∧
    parse_images (some [0,0,8,3, 0,0,0,1, 0,0,0,28, 0,0,0,28]) = .panicked := by
  exact ⟨by decide, by decide⟩

/-- Claim C4 (amended): on truncated input no decoder returns partial output, but
only the image decoder's truncated header is a recoverable error; all other
truncations terminate the process. Precisely: an image file shorter than 16 bytes
yields the recoverable ioErr; an image file with a full header declaring a nonzero
count but fewer than count*784 record bytes panics; a label file shorter than 8
bytes panics; a label file whose header promises more labels than there are bytes
panics. -/
theorem claim_C4_thm :
    (∀ data : Bytes, data.length < 16 → parse_images (some data) = .ioErr) ∧
    (∀ data : Bytes, 16 ≤ data.length → 1 ≤ beU32 ((data.drop 4).take 4) →
      (data.drop 16).length < beU32 ((data.drop 4).take 4) * 784 →
      parse_images (some data) = .panicked) ∧
    (∀ data : Bytes, data.length < 8 → parse_labels (some data) = .panicked) ∧
    (∀ data : Bytes, 8 ≤ data.length → (data.drop 8).length < beU32 ((data.drop 4).take 4) →
      parse_labels (some data) = .panicked) := by
  refine ⟨?_, ?_, ?_, ?_⟩
  · intro data h
    exact parse_images_truncated_header h
  · intro data h hc hlen
    rw [parse_images_eq data h, parseImageRecords_panicked hc (Or.inr hlen)]
  · intro data h
    exact parse_labels_truncated_header h
  · intro data h hlen
    rw [parse_labels_eq data h, parseLabelRecords_panicked hlen]

/-- Claim C4 witness: the amended theorem applied to four concrete truncated files. -/
theorem claim_C4_witness :
    parse_images (some [0,0,8,3]) = .ioErr ∧
    parse_images (some [0,0,8,3, 0,0,0,2, 0,0,0,28, 0,0,0,28, 1]) = .panicked ∧
    parse_labels (some [0,0,8]) = .panicked ∧
    parse_labels (some [0,0,8,1, 0,0,0,5, 1,2]) = .panicked :=
  ⟨claim_C4_thm.1 _ (by decide),
   claim_C4_thm.2.1 _ (by decide) (by decide) (by decide),
   claim_C4_thm.2.2.1 _ (by decide),
   claim_C4_thm.2.2.2 _ (by decide) (by decide)⟩

/-! ### Claim C6 -/

/-- Claim C6, counterexample: for header fields (7, 1, 1, 1) with the single 1-byte
pixel buffer [5] (of length rows*cols = 1), encode-then-decode does not return the
original data: the decoder panics, because each record read demands a full 784-byte
buffer. -/
theorem claim_C6_counterexample :
    parse_images (some (encodeImages 7 1 1 1 [[5]])) = .panicked ∧
    parse_images (some (encodeImages 7 1 1 1 [[5]])) ≠ .ok ⟨7, 1, 1, 1, [[5]]⟩ := by
  exact ⟨by decide, by decide⟩

/-- Claim C6 (amended): the encode-then-decode round trip returns exactly the
original header fields and pixel buffers whenever the declared shape satisfies
rows*cols = 784 (the compile-time record size the decoder actually uses), the header
fields fit in 32 bits, and the buffers match the header (image_count buffers of
rows*cols bytes each). -/
theorem claim_C6_thm (magic count rows cols : Nat) (imgs : List Bytes)
    (hm : magic < 4294967296) (hc : count < 4294967296) (hr : rows < 4294967296)
    (hcl : cols < 4294967296) (hshape : rows * cols = 784)
    (hcount : imgs.length = count) (hbufs : ∀ b ∈ imgs, b.length = rows * cols) :
    parse_images (some (encodeImages magic count rows cols imgs)) =
      .ok ⟨magic, count, rows, cols, imgs⟩ := by
  subst hcount
  rw [encodeImages_eq, parse_images_encoded magic imgs.length rows cols _ hm hc hr hcl,
    hshape]
  rw [parseImageRecords_flatten (by omega) (fun b hb => by rw [hbufs b hb, hshape])]

/-- Claim C6 witness: the amended round trip applied to a concrete file of one
28 x 28 image whose 784 pixels are all 9. -/
theorem claim_C6_witness :
    parse_images (some (encodeImages 2051 1 28 28 [List.replicate 784 9])) =
      .ok ⟨2051, 1, 28, 28, [List.replicate 784 9]⟩ :=
  claim_C6_thm 2051 1 28 28 [List.replicate 784 9] (by norm_num) (by norm_num)
    (by norm_num) (by norm_num) (by norm_num) (by simp)
    (by intro b hb; simp at hb; simp [hb])

/-! ### Claim C7 -/

/-- Claim C7, counterexample: a successfully decoded file declaring 28 x 29 pixels
per image returns a buffer of length 784, not rows*cols = 812: the buffers' length
is the compile-time constant, not the decoded header's rows*cols. -/
theorem claim_C7_counterexample :
    parse_images (some (u32be 2051 ++ (u32be 1 ++ (u32be 28 ++ (u32be 29 ++
        List.replicate 812 5))))) =
      .ok ⟨2051, 1, 28, 29, [List.replicate 784 5]⟩ ∧
    (List.replicate (784:Nat) (5:Nat)).length ≠ 28 * 29 := by
  constructor
  · rw [parse_images_encoded 2051 1 28 29 _ (by norm_num) (by norm_num) (by norm_num)
      (by norm_num)]
    rw [parseImageRecords_ok (by norm_num) (by simp)]
    simp [chunk784, List.take_replicate]
  · simp

/-- Claim C7 (amended): in every ImageBlock returned successfully by the image
decoder, every pixel buffer has identical length IMAGE_ROWS*IMAGE_COLUMNS = 784 (the
compile-time buffer size); this equals the header's rows*cols only when that product
is itself 784. -/
theorem claim_C7_thm (file : Option Bytes) (res : MnistImages)
    (h : parse_images file = .ok res) :
    ∀ b ∈ res.images, b.length = IMAGE_ROWS * IMAGE_COLUMNS := by
  obtain ⟨data, -, -, -, -, -, -, himgs, hlen⟩ := parse_images_ok_inv h
  rw [himgs]
  have h784 : IMAGE_ROWS * IMAGE_COLUMNS = 784 := rfl
  rw [h784]
  exact chunk784_mem_length hlen

/-- Claim C7 witness: the amended theorem applied to a concrete decode of one
28 x 28 image whose single buffer is the 784 nines. -/
theorem claim_C7_witness :
    (List.replicate 784 (9:Nat)).length = IMAGE_ROWS * IMAGE_COLUMNS := by
  have hdec : parse_images (some (u32be 2051 ++ (u32be 1 ++ (u32be 28 ++ (u32be 28 ++
      List.replicate 784 9))))) = .ok ⟨2051, 1, 28, 28, [List.replicate 784 9]⟩ := by
    rw [parse_images_encoded 2051 1 28 28 _ (by norm_num) (by norm_num) (by norm_num)
      (by norm_num)]
    rw [parseImageRecords_ok (by norm_num) (by simp)]
    simp [chunk784, List.take_replicate]
  exact claim_C7_thm _ _ hdec (List.replicate 784 9) (by simp)

/-! ### Claim C9 -/

/-- Claim C9: every file (image or label) whose header declares count = 0 and whose
header is fully present decodes to an empty record sequence without error, whatever
the magic, rows and cols fields hold. -/
theorem claim_C9_thm :
    (∀ data : Bytes, 16 ≤ data.length → (data.drop 4).take 4 = [0, 0, 0, 0] →
      parse_images (some data) =
        .ok ⟨beU32 (data.take 4), 0, beU32 ((data.drop 8).take 4),
          beU32 ((data.drop 12).take 4), []⟩) ∧
    (∀ data : Bytes, 8 ≤ data.length → (data.drop 4).take 4 = [0, 0, 0, 0] →
      parse_labels (some data) = .ok (beU32 (data.take 4), 0, [])) := by
  have h0 : beU32 [0, 0, 0, 0] = 0 := rfl
  constructor
  · intro data hlen hz
    rw [parse_images_eq data hlen, hz, h0]
    rfl
  · intro data hlen hz
    rw [parse_labels_eq data hlen, hz, h0]
    rfl

/-- Claim C9 witness: a 16-byte image file declaring zero 28 x 28 images, and a
9-byte label file declaring zero labels (with a stray trailing byte). -/
theorem claim_C9_witness :
    parse_images (some [0,0,8,3, 0,0,0,0, 0,0,0,28, 0,0,0,28]) =
      .ok ⟨2051, 0, 28, 28, []⟩ ∧
    parse_labels (some [0,0,8,1, 0,0,0,0, 9]) = .ok (2049, 0, []) := by
  constructor
  · rw [claim_C9_thm.1 [0,0,8,3, 0,0,0,0, 0,0,0,28, 0,0,0,28] (by decide) (by decide)]
    decide
  · rw [claim_C9_thm.2 [0,0,8,1, 0,0,0,0, 9] (by decide) (by decide)]
    decide

/-! ### Claim C10 -/

/-- Claim C10: for every label file with a full header promising no more labels than
there are bytes, the decoder succeeds and its labels are exactly the raw file bytes
after the header, unchanged — no range check of any kind is applied to label
values. -/
theorem claim_C10_thm (data : Bytes) (hlen : 8 ≤ data.length)
    (hcount : beU32 ((data.drop 4).take 4) ≤ (data.drop 8).length) :
    parse_labels (some data) =
      .ok (beU32 (data.take 4), beU32 ((data.drop 4).take 4),
        (data.drop 8).take (beU32 ((data.drop 4).take 4))) := by
  have hrec : parseLabelRecords (beU32 ((data.drop 4).take 4)) (data.drop 8)
      = .ok ((data.drop 8).take (beU32 ((data.drop 4).take 4))) :=
    parseLabelRecords_ok hcount
  rw [parse_labels_eq data hlen, hrec]

/-- Claim C10 witness: label bytes 255 and 7 — 255 is far outside the digit range
0-9 — pass through unchanged and cause no error. -/
theorem claim_C10_witness :
    parse_labels (some [0,0,8,1, 0,0,0,2, 255, 7]) = .ok (2049, 2, [255, 7]) := by
  rw [claim_C10_thm [0,0,8,1, 0,0,0,2, 255, 7] (by decide) (by decide)]
  decide

/-! ### Claim C8 -/

/-- Claim C8: whenever the image decoder succeeds the number of returned buffers
equals the decoded num_images field, whenever the label decoder succeeds the number
of returned labels equals the decoded count, and consequently every dataset the
loader returns has train_data aligned with train_labels and test_data aligned with
test_labels (failure outcomes return no dataset). -/
theorem claim_C8_thm :
    (∀ (file : Option Bytes) (res : MnistImages), parse_images file = .ok res →
      res.images.length = res.num_images) ∧
    (∀ (file : Option Bytes) (m n : Nat) (ls : List Nat), parse_labels file = .ok (m, n, ls) →
      ls.length = n) ∧
    (∀ (fs : FileSystem) (dir : String), datasetAligned (Mnist.new fs dir)) := by
  refine ⟨fun _ _ h => parse_images_ok_length h,
    fun _ _ _ _ h => parse_labels_ok_length h, ?_⟩
  intro fs dir
  unfold Mnist.new
  split
  · trivial
  · trivial
  rename_i train_data h1
  split
  · rename_i r h2
    obtain ⟨f, a, ex, rfl⟩ := checkImages_some h2
    trivial
  rename_i h2
  split
  · trivial
  · trivial
  rename_i test_data h3
  split
  · rename_i r h4
    obtain ⟨f, a, ex, rfl⟩ := checkImages_some h4
    trivial
  rename_i h4
  split
  · trivial
  · trivial
  rename_i m1 n1 train_labels h5
  split
  · rename_i r h6
    obtain ⟨f, a, ex, rfl⟩ := checkLabels_some h6
    trivial
  rename_i h6
  split
  · trivial
  · trivial
  rename_i m2 n2 test_labels h7
  split
  · rename_i r h8
    obtain ⟨f, a, ex, rfl⟩ := checkLabels_some h8
    trivial
  rename_i h8
  constructor
  · rw [parse_images_ok_length h1, (checkImages_none h2).2.1,
      parse_labels_ok_length h5, (checkLabels_none h6).2]
  · rw [parse_images_ok_length h3, (checkImages_none h4).2.1,
      parse_labels_ok_length h7, (checkLabels_none h8).2]

/-- Claim C8 witness: the decoder-length parts applied to concrete files (an image
file with zero 2 x 3 images, and a label file holding the two labels 7 and 8), and
the loader part applied to a concrete (empty) filesystem. -/
theorem claim_C8_witness :
    ((MnistImages.mk 2051 0 2 3 []).images).length = (MnistImages.mk 2051 0 2 3 []).num_images ∧
    ([7, 8] : List Nat).length = 2 ∧
    datasetAligned (Mnist.new (fun _ => none) "d") :=
  ⟨claim_C8_thm.1 (some [0,0,8,3, 0,0,0,0, 0,0,0,2, 0,0,0,3]) ⟨2051, 0, 2, 3, []⟩ (by decide),
   claim_C8_thm.2.1 (some [0,0,8,1, 0,0,0,2, 7, 8]) 2049 2 [7, 8] (by decide),
   claim_C8_thm.2.2 (fun _ => none) "d"⟩

/-! ### Claim C1 -/

/-- Claim C1: contrary to the claim, the Dataset Loader never reads the
training-images file at all — the result of the loader is unchanged under arbitrary
modification of the file stored at the canonical train-images path, because the
training-data decode joins TRAIN_LABEL_FILENAME instead of TRAIN_DATA_FILENAME
(src/lib.rs line 47). -/
theorem claim_C1_thm (fs fs' : FileSystem) (dir : String)
    (h : ∀ p : Path, p ≠ pathJoin dir TRAIN_DATA_FILENAME → fs p = fs' p) :
    Mnist.new fs dir = Mnist.new fs' dir := by
  have h1 : fs (pathJoin dir TRAIN_LABEL_FILENAME) = fs' (pathJoin dir TRAIN_LABEL_FILENAME) :=
    h _ (by simp [pathJoin, TRAIN_LABEL_FILENAME, TRAIN_DATA_FILENAME])
  have h2 : fs (pathJoin dir TEST_DATA_FILENAME) = fs' (pathJoin dir TEST_DATA_FILENAME) :=
    h _ (by simp [pathJoin, TEST_DATA_FILENAME, TRAIN_DATA_FILENAME])
  have h3 : fs (pathJoin dir TEST_LABEL_FILENAME) = fs' (pathJoin dir TEST_LABEL_FILENAME) :=
    h _ (by simp [pathJoin, TEST_LABEL_FILENAME, TRAIN_DATA_FILENAME])
  unfold Mnist.new
  rw [h1, h2, h3]

/-- Claim C1 witness: deleting versus fully populating the train-images file leaves
the loader's outcome identical. -/
theorem claim_C1_witness :
    Mnist.new (fun _ => none) "d" =
      Mnist.new (fun p => if p = pathJoin "d" TRAIN_DATA_FILENAME then
        some [0, 0, 8, 3] else none) "d" := by
  apply claim_C1_thm
  intro p hp
  simp [hp]

/-! ### Claim C5 -/

/-- A directory holding a fully well-formed MNIST dataset except that the
train-images file declares rows = 30 (with its complete 60000 x (30 x 28)-byte
payload); the label files hold all-zero labels. -/
def rows30Dir : FileSystem := fun p =>
  if p = ("d", TRAIN_DATA_FILENAME) then
    some (u32be 2051 ++ (u32be 60000 ++ (u32be 30 ++ (u32be 28 ++
      List.replicate (60000 * 840) 0))))
  else if p = ("d", TEST_DATA_FILENAME) then
    some (u32be 2051 ++ (u32be 10000 ++ (u32be 28 ++ (u32be 28 ++
      List.replicate (10000 * 784) 0))))
  else if p = ("d", TRAIN_LABEL_FILENAME) then
    some (u32be 2049 ++ (u32be 60000 ++ List.replicate 60000 0))
  else if p = ("d", TEST_LABEL_FILENAME) then
    some (u32be 2049 ++ (u32be 10000 ++ List.replicate 10000 0))
  else none

/-- Claim C5: in the directory rows30Dir the train-images file decodes with
rows = 30 and everything else well-formed, yet the loader does not fail with the
rows mismatch (expected 28, actual 30) the claim states: because of the filename
mix-up it parses the train-labels file as images and panics inside the decoder
before any validation runs, returning no dataset. -/
theorem rows30Dir_train_images_decodes :
    parse_images (rows30Dir ("d", TRAIN_DATA_FILENAME)) =
      .ok ⟨2051, 60000, 30, 28, chunk784 60000 (List.replicate (60000 * 840) 0)⟩ := by
  have hfile1 : rows30Dir ("d", TRAIN_DATA_FILENAME)
      = some (u32be 2051 ++ (u32be 60000 ++ (u32be 30 ++ (u32be 28 ++
        List.replicate (60000 * 840) 0)))) := rfl
  rw [hfile1,
    parse_images_encoded 2051 60000 30 28 _ (by norm_num) (by norm_num) (by norm_num)
      (by norm_num),
    parseImageRecords_ok (by norm_num) (by simp only [List.length_replicate]; norm_num)]

theorem rows30Dir_trainlabels_file_panics :
    parse_images (rows30Dir (pathJoin "d" TRAIN_LABEL_FILENAME)) = .panicked := by
  have hfile2 : rows30Dir (pathJoin "d" TRAIN_LABEL_FILENAME)
      = some (u32be 2049 ++ (u32be 60000 ++ List.replicate 60000 0)) := rfl
  have hrepl : List.replicate 60000 (0:Nat)
      = u32be 0 ++ (u32be 0 ++ List.replicate 59992 0) := by
    have h60000 : (60000:Nat) = 4 + (4 + 59992) := by norm_num
    rw [h60000, List.replicate_add, List.replicate_add]
    rfl
  rw [hfile2, hrepl,
    parse_images_encoded 2049 60000 0 0 _ (by norm_num) (by norm_num) (by norm_num)
      (by norm_num),
    parseImageRecords_panicked (by norm_num) (Or.inl (by norm_num))]

theorem Mnist.new_decoderPanic_trainData {fs : FileSystem} {dir : String}
    (h : parse_images (fs (pathJoin dir TRAIN_LABEL_FILENAME)) = .panicked) :
    Mnist.new fs dir = .decoderPanic .trainData := by
  unfold Mnist.new
  rw [h]

theorem rows30Dir_load_panics : Mnist.new rows30Dir "d" = .decoderPanic .trainData :=
  Mnist.new_decoderPanic_trainData rows30Dir_trainlabels_file_panics

theorem claim_C5_thm :
    parse_images (rows30Dir ("d", TRAIN_DATA_FILENAME)) =
      .ok ⟨2051, 60000, 30, 28, chunk784 60000 (List.replicate (60000 * 840) 0)⟩ ∧
    Mnist.new rows30Dir "d" = .decoderPanic .trainData ∧
    Mnist.new rows30Dir "d" ≠ .assertPanic .trainData .rows 30 28 := by
  refine ⟨rows30Dir_train_images_decodes, rows30Dir_load_panics, ?_⟩
  rw [rows30Dir_load_panics]
  simp

end RustMnist
